import Mathlib

/-!
Verification development for the Unipile recruitment-chatbot backend
(`backend/main.py`, `backend/tools.py`).  The Python source is shallowly
embedded: dictionaries become association lists, JSON values become the
inductive `JVal`, network calls and the language model become oracle
parameters, and the request handler `chat` becomes a fuel-indexed pure
function over an explicit session store.
-/

namespace UnipileBot

/-- `'\x7b'` and `'\x7d'`, the object-delimiting braces of JSON text. -/
def lbraceC : Char := Char.ofNat 123

def rbraceC : Char := Char.ofNat 125

/-- The double-quote character. -/
def quoteC : Char := Char.ofNat 34

/-- The backslash character. -/
def bslashC : Char := Char.ofNat 92

/-- Python `dict` lookup `d.get(k)`: first binding of the key wins. -/
def getKey {α : Type} : List (String × α) → String → Option α
  | [], _ => none
  | (k', v) :: t, k => if k' = k then some v else getKey t k

/-- Python `dict` assignment `d[k] = v`: updates the existing binding in
place, otherwise appends a new binding at the end. -/
def setKey {α : Type} : List (String × α) → String → α → List (String × α)
  | [], k, v => [(k, v)]
  | (k', v') :: t, k, v =>
    if k' = k then (k, v) :: t else (k', v') :: setKey t k v

/-- Python `del d[k]` (on a dict without duplicate keys). -/
def removeKey {α : Type} : List (String × α) → String → List (String × α)
  | [], _ => []
  | (k', v') :: t, k => if k' = k then t else (k', v') :: removeKey t k

/-- `startsWith p s` : the char list `p` is a leading segment of `s`. -/
def startsWith : List Char → List Char → Bool
  | [], _ => true
  | _ :: _, [] => false
  | p :: ps, c :: cs => p == c && startsWith ps cs

/-- Python's `p in s` substring test on char lists. -/
def containsSub (p : List Char) : List Char → Bool
  | [] => p.isEmpty
  | c :: cs => startsWith p (c :: cs) || containsSub p cs

/-- Fuel-indexed core of Python `str.replace(old, new)`: replaces every
non-overlapping occurrence left to right.  The fuel only serves structural
termination; any fuel at least the length of the subject string gives
Python's behaviour.  (The Python corner case of an empty `old` pattern is
not modelled; all patterns used are non-empty.) -/
def replaceFuel (p r : List Char) : Nat → List Char → List Char
  | 0, s => s
  | fuel + 1, s =>
    match s with
    | [] => []
    | c :: cs =>
      if p ≠ [] ∧ startsWith p (c :: cs) = true then
        r ++ replaceFuel p r fuel ((c :: cs).drop p.length)
      else
        c :: replaceFuel p r fuel cs

/-- Python `str.replace(old, new)` on char lists. -/
def replaceList (p r s : List Char) : List Char :=
  replaceFuel p r s.length s

/-- Python `str.replace` on strings. -/
def pyReplace (s old new : String) : String :=
  String.mk (replaceList old.data new.data s.data)

/-- JSON values as handled by Python's `json` module (objects are kept as
ordered association lists, matching insertion-ordered `dict`s; only the
integer fragment of JSON numbers is modelled, which covers every numeric
value this backend manipulates). -/
inductive JVal where
  | jstr : String → JVal
  | jnum : Int → JVal
  | jbool : Bool → JVal
  | jnull : JVal
  | jarr : List JVal → JVal
  | jobj : List (String × JVal) → JVal
deriving Repr

open JVal

/-- String escaping of `json.dumps` restricted to the two escapes that can
occur in this backend's payloads (quote and backslash). -/
def escapeJson (s : String) : String :=
  String.mk (s.data.foldr
    (fun c acc =>
      if c = quoteC then bslashC :: quoteC :: acc
      else if c = bslashC then bslashC :: bslashC :: acc
      else c :: acc) [])

mutual
/-- `json.dumps` with its default separators `", "` and `": "`. -/
def jsonDumps : JVal → String
  | jstr s => String.singleton quoteC ++ escapeJson s ++ String.singleton quoteC
  | jnum n => toString n
  | jbool b => if b then "true" else "false"
  | jnull => "null"
  | jarr xs => "[" ++ jsonDumpsArr xs ++ "]"
  | jobj fs => String.singleton lbraceC ++ jsonDumpsObj fs ++ String.singleton rbraceC

def jsonDumpsArr : List JVal → String
  | [] => ""
  | [x] => jsonDumps x
  | x :: y :: t => jsonDumps x ++ ", " ++ jsonDumpsArr (y :: t)

def jsonDumpsObj : List (String × JVal) → String
  | [] => ""
  | [(k, v)] =>
      String.singleton quoteC ++ escapeJson k ++ String.singleton quoteC ++ ": " ++ jsonDumps v
  | (k, v) :: p :: t =>
      String.singleton quoteC ++ escapeJson k ++ String.singleton quoteC ++ ": " ++ jsonDumps v
        ++ ", " ++ jsonDumpsObj (p :: t)
end

/-- Whitespace skipping of the JSON grammar. -/
def skipWs (s : List Char) : List Char :=
  s.dropWhile (fun c => c = ' ' || c = '\n' || c = '\t' || c = '\r')

/-- One escape of a JSON string literal (the subset used here). -/
def unescapeJsonChar (c : Char) : Option Char :=
  if c = quoteC then some quoteC
  else if c = bslashC then some bslashC
  else if c = '/' then some '/'
  else if c = 'n' then some '\n'
  else if c = 't' then some '\t'
  else if c = 'r' then some '\r'
  else none

/-- Body of a JSON string literal, after the opening quote; returns the
decoded characters and the rest after the closing quote. -/
def parseStrChars : List Char → Option (List Char × List Char)
  | [] => none
  | c :: cs =>
    if c = quoteC then some ([], cs)
    else if c = bslashC then
      match cs with
      | [] => none
      | e :: cs2 =>
        match unescapeJsonChar e with
        | none => none
        | some ch =>
          match parseStrChars cs2 with
          | none => none
          | some (a, r) => some (ch :: a, r)
    else
      match parseStrChars cs with
      | none => none
      | some (a, r) => some (c :: a, r)

/-- Digit run to a natural number. -/
def digitsToNat (l : List Char) : Nat :=
  l.foldl (fun a c => a * 10 + (c.toNat - 48)) 0

mutual
/-- Recursive-descent reader for the JSON fragment produced and consumed by
this backend (`json.loads` on tool-call argument strings): objects, arrays,
strings, integers, booleans, null.  `none` models `json.loads` raising
`JSONDecodeError`.  Fuel strictly decreases on every nested parse; callers
supply fuel larger than any possible nesting depth of the input. -/
def parseJV : Nat → List Char → Option (JVal × List Char)
  | 0, _ => none
  | fuel + 1, s =>
    match skipWs s with
    | [] => none
    | c :: cs =>
      if c = quoteC then
        match parseStrChars cs with
        | none => none
        | some (a, r) => some (jstr (String.mk a), r)
      else if c = lbraceC then
        match skipWs cs with
        | d :: ds =>
          if d = rbraceC then some (jobj [], ds)
          else parseObjFields fuel (d :: ds) []
        | [] => none
      else if c = '[' then
        match skipWs cs with
        | d :: ds =>
          if d = ']' then some (jarr [], ds)
          else parseArrItems fuel (d :: ds) []
        | [] => none
      else if c = 't' then
        if startsWith ['r', 'u', 'e'] cs then some (jbool true, cs.drop 3) else none
      else if c = 'f' then
        if startsWith ['a', 'l', 's', 'e'] cs then some (jbool false, cs.drop 4) else none
      else if c = 'n' then
        if startsWith ['u', 'l', 'l'] cs then some (jnull, cs.drop 3) else none
      else if c = '-' then
        match cs.span (·.isDigit) with
        | ([], _) => none
        | (ds, rest) =>
          match rest with
          | r :: _ => if r = '.' || r = 'e' || r = 'E' then none
                      else some (jnum (-(digitsToNat ds : Int)), rest)
          | [] => some (jnum (-(digitsToNat ds : Int)), rest)
      else if c.isDigit then
        match (c :: cs).span (·.isDigit) with
        | (ds, rest) =>
          match rest with
          | r :: _ => if r = '.' || r = 'e' || r = 'E' then none
                      else some (jnum (digitsToNat ds : Int), rest)
          | [] => some (jnum (digitsToNat ds : Int), rest)
      else none

/-- Comma-separated items of a JSON array, up to the closing bracket. -/
def parseArrItems : Nat → List Char → List JVal → Option (JVal × List Char)
  | 0, _, _ => none
  | fuel + 1, s, acc =>
    match parseJV fuel s with
    | none => none
    | some (v, rest) =>
      match skipWs rest with
      | ',' :: r2 => parseArrItems fuel r2 (acc ++ [v])
      | d :: r2 => if d = ']' then some (jarr (acc ++ [v]), r2) else none
      | [] => none

/-- Comma-separated `"key": value` fields of a JSON object, up to the
closing brace; a duplicate key overwrites, as in Python's `json.loads`. -/
def parseObjFields : Nat → List Char → List (String × JVal) → Option (JVal × List Char)
  | 0, _, _ => none
  | fuel + 1, s, acc =>
    match skipWs s with
    | c :: cs =>
      if c = quoteC then
        match parseStrChars cs with
        | none => none
        | some (k, r1) =>
          match skipWs r1 with
          | ':' :: r2 =>
            match parseJV fuel r2 with
            | none => none
            | some (v, r3) =>
              let acc' := setKey acc (String.mk k) v
              match skipWs r3 with
              | ',' :: r4 => parseObjFields fuel r4 acc'
              | d :: r4 => if d = rbraceC then some (jobj acc', r4) else none
              | [] => none
          | _ => none
      else none
    | [] => none
end

/-- `json.loads` on a whole document: the parse must consume the entire
input (up to trailing whitespace). -/
def jsonParse (s : String) : Option JVal :=
  match parseJV (2 * s.length + 4) s.data with
  | some (v, rest) => if skipWs rest = [] then some v else none
  | none => none

/-- Python slice `l[-2:]`: the last at most two elements. -/
def lastTwo {α : Type} (l : List α) : List α :=
  l.drop (l.length - 2)

/-- Fuel-indexed core of the response chunking; any fuel at least the
length of the content gives the code's behaviour. -/
def chunkFuel : Nat → List Char → List String
  | 0, _ => []
  | fuel + 1, s =>
    match s with
    | [] => []
    | c :: cs => String.mk ((c :: cs).take 50) :: chunkFuel fuel ((c :: cs).drop 50)

/-- The response chunking of `generate` (`main.py` lines 712-717):
`content[i:i+50]` for `i = 0, 50, 100, ...`; an empty content yields no
fragments. -/
def chunk50 (s : List Char) : List String :=
  chunkFuel s.length s

/-- One entry of the OpenAI tool-call list carried by an assistant message:
`{id, function: {name, arguments}}` with `arguments` a raw JSON text. -/
structure ToolCall where
  id : String
  name : String
  arguments : String
deriving Repr, DecidableEq

/-- One conversation message, as stored in a session's history
(`ChatMessage` in `main.py` / the dicts produced by
`msg.dict(exclude_none=True)`).  Optional fields are `none` when the key is
absent from the dict. -/
structure Msg where
  role : String
  content : Option String
  tool_calls : Option (List ToolCall) := none
  tool_call_id : Option String := none
deriving Repr, DecidableEq

/-- The message part of one model completion: text content plus the native
tool-call list.  An empty list models both `tool_calls = None` and
`tool_calls = []`, which `if not message.tool_calls` treats alike. -/
structure ModelResp where
  content : Option String
  toolCalls : List ToolCall
deriving Repr

/-- Unipile credentials as read from the environment in `tools.py`; the
empty string models an unset variable, matching the truthiness test
`not all([account_id, base_url, api_key])`. -/
structure Config where
  accountId : String
  baseUrl : String
  apiKey : String

/-- `all([account_id, base_url, api_key])` in `tools.py`. -/
def configOk (cfg : Config) : Bool :=
  !cfg.accountId.isEmpty && !cfg.baseUrl.isEmpty && !cfg.apiKey.isEmpty

/-- Outcome of the `requests` call inside a `try` block of `tools.py`:
either the value the `try` body returns, or the exception it raises. -/
inductive HttpFault where
  | httpError (status : Nat) (detailsJson : Option JVal) (bodyText : String)
  | exn (msg : String)
deriving Repr

/-- The external world as seen by one request: the model provider and the
three tool back-ends.  `searchHttp` covers `tools.py` lines 133-194 (the
POST and the in-`try` response post-processing), `resolveHttp` lines 63-72,
`specHttp` lines 13-20; each `Except.error` is an exception raised inside
the corresponding `try` block.  `model` is the completion call of
`main.py` line 664; its `Except.error` is a model-call fault (timeout,
provider error, malformed response). -/
structure Oracles where
  model : List Msg → Except String ModelResp
  cfg : Config
  searchHttp : Int → List (String × JVal) → Except HttpFault JVal
  resolveHttp : String → Except String JVal
  specHttp : Except String String

/-- Python truthiness of a JSON value (`not body_params["location"]`). -/
def pyFalsy : JVal → Bool
  | jnull => true
  | jbool b => !b
  | jnum n => n == 0
  | jstr s => s.isEmpty
  | jarr l => l.isEmpty
  | jobj l => l.isEmpty

/-- The default location filter of `search_linkedin`
(`tools.py` lines 120-126): Toronto, Ontario. -/
def torontoDefault : JVal :=
  jarr [jobj [("id", jstr "100025096"), ("priority", jstr "MUST_HAVE")]]

/-- `min(params.get("limit", 20), 50)` (`tools.py` line 108).  A non-number
makes Python's `min` raise `TypeError`, outside any `try` block.  Python
booleans compare as integers. -/
def pyMin50 : JVal → Except String Int
  | jnum n => .ok (min n 50)
  | jbool b => .ok (min (if b then (1 : Int) else 0) 50)
  | _ => .error "TypeError: min of non-number"

/-- The request body built by `search_linkedin` (`tools.py` lines
112-126): drop `limit`, force `api = "recruiter"` and
`category = "people"`, and default `location` to the Toronto filter when
the key is absent or its value is falsy. -/
def buildSearchBody (fields : List (String × JVal)) : List (String × JVal) :=
  let b1 := removeKey fields "limit"
  let b2 := setKey b1 "api" (jstr "recruiter")
  let b3 := setKey b2 "category" (jstr "people")
  match getKey b3 "location" with
  | none => setKey b3 "location" torontoDefault
  | some v => if pyFalsy v then setKey b3 "location" torontoDefault else b3

/-- `search_linkedin` (`tools.py` lines 76-203).  `Except.error` is an
exception escaping the function (there is no `try` around the argument
handling before line 133); `Except.ok` is its returned dict.  The two
`except` arms turn faults of the `try` block into error payloads. -/
def search_linkedin (cfg : Config)
    (httpO : Int → List (String × JVal) → Except HttpFault JVal)
    (params : JVal) : Except String JVal :=
  match params with
  | jobj fields =>
    if !configOk cfg then
      .ok (jobj [("error", jstr "Missing configuration. Please set LINKEDIN_ACCOUNT_ID, UNIPILE_DSN, and UNIPILE_API_KEY in .env")])
    else
      match pyMin50 ((getKey fields "limit").getD (jnum 20)) with
      | .error e => .error e
      | .ok lim =>
        let body := buildSearchBody fields
        match httpO lim body with
        | .ok v => .ok v
        | .error (.httpError code dJson dText) =>
          .ok (jobj [("error", jstr ("HTTP Error " ++ toString code)),
                     ("details", dJson.getD (jstr dText))])
        | .error (.exn m) =>
          .ok (jobj [("error", jstr ("An error occurred: " ++ m))])
  | _ => .error "AttributeError: params has no attribute get"

/-- `resolve_linkedin_location` (`tools.py` lines 29-74): GTA alias,
configuration check, then the `try` block (covered by the oracle) whose
exceptions become `{"error": ...}` payloads. -/
def resolve_linkedin_location (cfg : Config)
    (resolveO : String → Except String JVal) (name : String) : JVal :=
  let name' := if !name.isEmpty && containsSub "GTA".data name.toUpper.data
               then "Greater Toronto Area" else name
  if !configOk cfg then jobj [("error", jstr "Missing configuration.")]
  else
    match resolveO name' with
    | .ok found => found
    | .error m => jobj [("error", jstr ("Location resolution failed: " ++ m))]

/-- `fetch_unipile_spec` (`tools.py` lines 6-26): never raises; a fetch
fault becomes an error payload. -/
def fetch_unipile_spec (specO : Except String String) : JVal :=
  match specO with
  | .ok text =>
    jobj [("success", jbool true), ("spec", jstr text),
          ("message", jstr "API specification fetched successfully")]
  | .error e =>
    jobj [("success", jbool false),
          ("error", jstr ("Failed to fetch API spec: " ++ e)),
          ("message", jstr "Using cached knowledge of Unipile API structure")]

/-- `checkpoint_block` (`main.py` lines 591-597): the approval-checkpoint
block the composer expects to find verbatim in the base template. -/
def checkpointBlock : String :=
  "### Client Checkpoint (MANDATORY)\n- Present the JSON to the client in a code block\n- Explain what the search will do\n- Ask for explicit approval: \"Please type \x27approve\x27 or \x27yes\x27 to execute this search.\"\n- **REMEMBER THIS EXACT JSON** - you will need to pass it to `search_linkedin` when they approve\n- **WAIT for user approval before proceeding to Step 4**\n- **DO NOT call any tools while waiting** - just wait for their response"

/-- `checkpoint_replacement` (`main.py` lines 599-602). -/
def checkpointReplacement : String :=
  "### Client Checkpoint (SKIPPED)\n- **DO NOT ask for approval.**\n- **IMMEDIATELY** call the `search_linkedin` tool with the JSON you just built.\n- Proceed to Step 5 (Analysis) immediately after the tool call."

/-- `step4_block` (`main.py` lines 606-608). -/
def step4Block : String :=
  "## STEP 4 — EXECUTE LINKEDIN SEARCH\n**CRITICAL: When the user responds with \"approve\", \"yes\", \"confirm\", \"ok\", or similar approval:**\n1. **IMMEDIATELY call `search_linkedin`** with the exact JSON payload you showed them"

/-- `step4_replacement` (`main.py` lines 610-612). -/
def step4Replacement : String :=
  "## STEP 4 — EXECUTE LINKEDIN SEARCH\n**CRITICAL: EXECUTE IMMEDIATELY**\n1. **Call `search_linkedin`** with the JSON payload from Step 3"

/-- Prompt composition (`main.py` lines 588-626), parameterised by the base
template so that an out-of-band edit of the template can be expressed.
When `verify_json` is false the code calls `str.replace` on the checkpoint
block (twice, lines 604 and 619) and then on the step-4 block (line 626);
there is no error signalling of any kind, only debug prints. -/
def composePrompt (base : String) (verifyJson : Bool) : String :=
  if verifyJson then base
  else
    pyReplace
      (pyReplace (pyReplace base checkpointBlock checkpointReplacement)
        checkpointBlock checkpointReplacement)
      step4Block step4Replacement

/-- Encoding of one tool call as serialised by `msg.dict(exclude_none=True)`
in `serialize_history` (`main.py` lines 513-524). -/
def encodeToolCall (tc : ToolCall) : JVal :=
  jobj [("id", jstr tc.id), ("type", jstr "function"),
        ("function", jobj [("name", jstr tc.name), ("arguments", jstr tc.arguments)])]

/-- Inverse reading of one serialised tool call. -/
def decodeToolCall (v : JVal) : Option ToolCall :=
  match v with
  | jobj fs =>
    match getKey fs "id", getKey fs "function" with
    | some (jstr i), some (jobj g) =>
      match getKey g "name", getKey g "arguments" with
      | some (jstr n), some (jstr a) => some ⟨i, n, a⟩
      | _, _ => none
    | _, _ => none
  | _ => none

/-- Reading back a list of serialised tool calls. -/
def decodeToolCalls : List JVal → Option (List ToolCall)
  | [] => some []
  | v :: vs =>
    match decodeToolCall v, decodeToolCalls vs with
    | some tc, some tcs => some (tc :: tcs)
    | _, _ => none

/-- Encoding of one message as persisted to the session store:
`dict(exclude_none=True)` drops every `None` field, so an absent optional
field produces no key at all, while `tool_calls = []` produces the key with
an empty array. -/
def encodeMsg (m : Msg) : JVal :=
  jobj ([("role", jstr m.role)]
    ++ (match m.content with | some c => [("content", jstr c)] | none => [])
    ++ (match m.tool_calls with
        | some l => [("tool_calls", jarr (l.map encodeToolCall))]
        | none => [])
    ++ (match m.tool_call_id with
        | some i => [("tool_call_id", jstr i)]
        | none => []))

/-- Reading one message back from its persisted form (`json.loads`
followed by `dict.get` access, as in `main.py`). -/
def decodeMsg (v : JVal) : Option Msg :=
  match v with
  | jobj fs =>
    match getKey fs "role" with
    | some (jstr r) =>
      let c : Option String :=
        match getKey fs "content" with | some (jstr s) => some s | _ => none
      let tci : Option String :=
        match getKey fs "tool_call_id" with | some (jstr s) => some s | _ => none
      match getKey fs "tool_calls" with
      | none => some ⟨r, c, none, tci⟩
      | some (jarr vs) =>
        match decodeToolCalls vs with
        | some tcs => some ⟨r, c, some tcs, tci⟩
        | none => none
      | some _ => none
    | _ => none
  | _ => none

/-- A session's full ordered message list, encoded. -/
def encodeHistory (ms : List Msg) : JVal :=
  jarr (ms.map encodeMsg)

/-- Reading back a list of serialised messages. -/
def decodeMsgs : List JVal → Option (List Msg)
  | [] => some []
  | x :: xs =>
    match decodeMsg x, decodeMsgs xs with
    | some m, some ms => some (m :: ms)
    | _, _ => none

/-- Reading a full session back. -/
def decodeHistory (v : JVal) : Option (List Msg) :=
  match v with
  | jarr vs => decodeMsgs vs
  | _ => none

/-- The duplicate test of the merge strategy (`main.py` line 655):
`any(msg.get("role") == last["role"] and msg.get("content") ==
last["content"] for msg in current_history[-2:])`. -/
def dupRecent (hist : List Msg) (m : Msg) : Bool :=
  (lastTwo hist).any (fun x => x.role == m.role && x.content == m.content)

/-- The merge strategy of `chat` (`main.py` lines 649-656): append only the
last incoming message, and skip it when an identical (role, content) pair
already sits among the last two stored messages. -/
def appendMerge (hist : List Msg) (incoming : List Msg) : List Msg :=
  match incoming.getLast? with
  | none => hist
  | some m => if dupRecent hist m then hist else hist ++ [m]

/-- The session store projected to one authenticated user: session id to
ordered message history (the `chat_sessions` table). -/
abbrev Store := List (String × List Msg)

/-- Store lookup by session id. -/
def storeGet (st : Store) (sid : String) : Option (List Msg) :=
  getKey st sid

/-- Store write (create or replace) by session id. -/
def storeSet (st : Store) (sid : String) (h : List Msg) : Store :=
  setKey st sid h

/-- The initial system message of a fresh session (`main.py` line 635). -/
def sysMsg (prompt : String) : Msg :=
  { role := "system", content := some prompt }

/-- A user message as sent by the frontend. -/
def userMsg (text : String) : Msg :=
  { role := "user", content := some text }

/-- A plain assistant text message as persisted by `generate`
(`main.py` line 720). -/
def asstMsg (text : String) : Msg :=
  { role := "assistant", content := some text }

/-- A tool-result message (`main.py` lines 682-701). -/
def toolMsg (callId content : String) : Msg :=
  { role := "tool", content := some content, tool_call_id := some callId }

/-- System-prompt refresh on an existing session (`main.py` lines
646-647): when the stored history is non-empty and its head has the system
role, only that head's `content` is replaced. -/
def updateSystemHead (h : List Msg) (prompt : String) : List Msg :=
  match h with
  | [] => []
  | m :: t => if m.role == "system" then { m with content := some prompt } :: t else m :: t

/-- The assistant message appended on a tool round (`main.py` line 705):
the raw model message with its tool-call list present. -/
def assistantToolMsg (r : ModelResp) : Msg :=
  { role := "assistant", content := r.content, tool_calls := some r.toolCalls }

/-- Dispatch of one native tool call (`main.py` lines 679-702).  There is
no `try` in this loop: `json.loads` on the argument text, a missing
`location_name` key, or a fault escaping an executor all raise out of the
dispatch (`Except.error`), aborting the turn.  A tool name other than the
three known ones matches no branch and appends nothing. -/
def dispatchTool (O : Oracles) (tc : ToolCall) : Except String (List Msg) :=
  if tc.name == "fetch_unipile_spec" then
    .ok [toolMsg tc.id (jsonDumps (fetch_unipile_spec O.specHttp))]
  else if tc.name == "search_linkedin" then
    match jsonParse tc.arguments with
    | none => .error ("json.loads failed on tool arguments: " ++ tc.arguments)
    | some args =>
      match search_linkedin O.cfg O.searchHttp args with
      | .ok v => .ok [toolMsg tc.id (jsonDumps v)]
      | .error e => .error e
  else if tc.name == "resolve_linkedin_location" then
    match jsonParse tc.arguments with
    | none => .error ("json.loads failed on tool arguments: " ++ tc.arguments)
    | some (jobj fs) =>
      match getKey fs "location_name" with
      | some (jstr s) =>
        .ok [toolMsg tc.id (jsonDumps (resolve_linkedin_location O.cfg O.resolveHttp s))]
      | some _ => .error "AttributeError: location_name has no attribute upper"
      | none => .error "KeyError: location_name"
    | some _ => .error "TypeError: args is not subscriptable"
  else .ok []

/-- The tool-output loop of one round (`main.py` lines 678-702). -/
def runToolCalls (O : Oracles) : List ToolCall → Except String (List Msg)
  | [] => .ok []
  | tc :: rest => do
    let out ← dispatchTool O tc
    let outs ← runToolCalls O rest
    .ok (out ++ outs)

/-- Result of the `while True` completion loop. -/
inductive LoopOut where
  | done : List Msg → Option String → LoopOut
  | fault : String → LoopOut
  | running : LoopOut
deriving Repr

/-- The `while True` loop of `chat` (`main.py` lines 663-707), indexed by
the number of rounds still allowed to run.  The loop itself has no bound:
`LoopOut.running` records that after `fuel` full rounds it had still not
exited.  A model fault or a dispatch fault escapes to the handler's outer
`except` as `LoopOut.fault`. -/
def chatRounds (O : Oracles) : Nat → List Msg → LoopOut
  | 0, _ => .running
  | fuel + 1, hist =>
    match O.model hist with
    | .error e => .fault e
    | .ok r =>
      if r.toolCalls.isEmpty then .done hist r.content
      else
        match runToolCalls O r.toolCalls with
        | .error e => .fault e
        | .ok outs => chatRounds O fuel (hist ++ assistantToolMsg r :: outs)

/-- Everything `chat` does before its first suspension point (the model
call): session-id resolution (`main.py` line 585), prompt composition,
session load or create-and-commit (lines 629-642), system-prompt refresh
(lines 644-647) and the merge of the incoming messages (lines 649-656). -/
structure Phase1Out where
  store1 : Store
  sid : String
  hist : List Msg
deriving Repr, DecidableEq

/-- `session_id = request.session_id or str(uuid.uuid4())`
(`main.py` line 585): Python's `or` falls through to the fresh id on a
missing or empty session id. -/
def resolveSid (reqSid : Option String) (freshSid : String) : String :=
  match reqSid with
  | some s => if s.isEmpty then freshSid else s
  | none => freshSid

/-- Phase 1 of the `chat` handler (`main.py` lines 585-656). -/
def chatPhase1 (base : String) (verifyJson : Bool) (store : Store)
    (reqSid : Option String) (freshSid : String) (incoming : List Msg) : Phase1Out :=
  let sid := resolveSid reqSid freshSid
  let prompt := composePrompt base verifyJson
  match storeGet store sid with
  | none =>
    let h0 := [sysMsg prompt]
    { store1 := storeSet store sid h0, sid := sid,
      hist := appendMerge h0 incoming }
  | some h =>
    { store1 := store, sid := sid,
      hist := appendMerge (updateSystemHead h prompt) incoming }

/-- The tail of `generate` (`main.py` lines 719-725): append the final
assistant message and persist the whole history for the session. -/
def chatFinish (store : Store) (sid : String) (hist : List Msg)
    (content : String) : Store :=
  storeSet store sid (hist ++ [asstMsg content])

/-- The whole `/api/chat` turn (`main.py` lines 582-743) for one
authenticated user: `none` means the completion loop was still running
after `fuel` rounds; otherwise the resulting store is paired with the
fragment list streamed to the caller.  The outer `except` (lines 739-743)
turns any escaped exception into the single fragment `"Error: ..."`,
leaving the store at whatever was last committed (the creation commit of a
fresh session is the only write before `generate`). -/
def chat (O : Oracles) (base : String) (verifyJson : Bool) (store : Store)
    (reqSid : Option String) (freshSid : String) (incoming : List Msg)
    (fuel : Nat) : Option (Store × List String) :=
  let p := chatPhase1 base verifyJson store reqSid freshSid incoming
  match chatRounds O fuel p.hist with
  | .running => none
  | .fault e => some (p.store1, ["Error: " ++ e])
  | .done h c =>
    let content := c.getD ""
    some (chatFinish p.store1 p.sid h content, chunk50 content.data)

/-- `true` when a tool-role message answering call id `i` occurs in the
list. -/
def toolAnswered (i : String) (rest : List Msg) : Bool :=
  rest.any (fun m => m.role == "tool" && m.tool_call_id == some i)

/-- No dangling assistant message: every assistant message carrying tool
calls is followed by a tool-result message for each of its call ids. -/
def noDanglingB : List Msg → Bool
  | [] => true
  | m :: rest =>
    (if m.role == "assistant" then
      match m.tool_calls with
      | some tcs => tcs.all (fun tc => toolAnswered tc.id rest)
      | none => true
    else true) && noDanglingB rest

/-- Every history reachable in the store starts with a system message. -/
def StoreInv (st : Store) : Prop :=
  ∀ sid h, storeGet st sid = some h → ∃ m t, h = m :: t ∧ m.role = "system"

/-- Two concurrent turns on the same session, interleaved at the handler's
suspension points: the handler holds no lock, and between `chatPhase1`
(synchronous up to the first `await` of the model call) and the final
persistence inside `generate` the event loop may run the other request.
This schedule runs both phase-1 reads before either write. -/
def interleavedPair (base : String) (store : Store) (sid : String)
    (incA incB : Msg) (cA cB : String) : Store × List Msg × List Msg :=
  let pA := chatPhase1 base true store (some sid) sid [incA]
  let pB := chatPhase1 base true pA.store1 (some sid) sid [incB]
  let stA := chatFinish pB.store1 sid pA.hist cA
  let stB := chatFinish stA sid pB.hist cB
  (stB, pA.hist, pB.hist)

/-! ### Helper lemmas -/

theorem getKey_setKey_self {α : Type} (l : List (String × α)) (k : String) (v : α) :
    getKey (setKey l k v) k = some v := by
  induction l with
  | nil => simp [getKey, setKey]
  | cons p t ih =>
    obtain ⟨k', v'⟩ := p
    by_cases h : k' = k
    · simp [setKey, getKey, h]
    · simp [setKey, getKey, h, ih]

theorem getKey_setKey_ne {α : Type} (l : List (String × α)) (k k' : String) (v : α)
    (h : k' ≠ k) : getKey (setKey l k v) k' = getKey l k' := by
  have h' : k ≠ k' := Ne.symm h
  induction l with
  | nil => simp [getKey, setKey, h']
  | cons p t ih =>
    obtain ⟨k0, v0⟩ := p
    by_cases h0 : k0 = k
    · subst h0
      simp [setKey, getKey, h']
    · simp [setKey, getKey, h0, ih]

theorem getKey_removeKey_ne {α : Type} (l : List (String × α)) (k k' : String)
    (h : k' ≠ k) : getKey (removeKey l k) k' = getKey l k' := by
  have h' : k ≠ k' := Ne.symm h
  induction l with
  | nil => simp [removeKey]
  | cons p t ih =>
    obtain ⟨k0, v0⟩ := p
    by_cases h0 : k0 = k
    · subst h0
      simp [removeKey, getKey, h']
    · simp [removeKey, getKey, h0, ih]

theorem replaceFuel_eq_self (p r : List Char) (s : List Char)
    (h : containsSub p s = false) : ∀ fuel, replaceFuel p r fuel s = s := by
  intro fuel
  induction fuel generalizing s with
  | zero => rfl
  | succ n ih =>
    cases s with
    | nil => rfl
    | cons c cs =>
      have h' : startsWith p (c :: cs) = false ∧ containsSub p cs = false := by
        simpa [containsSub] using h
      rw [replaceFuel]
      rw [if_neg (by simp [h'.1]), ih cs h'.2]

theorem pyReplace_eq_self (s old new : String)
    (h : containsSub old.data s.data = false) : pyReplace s old new = s := by
  unfold pyReplace replaceList
  rw [replaceFuel_eq_self _ _ _ h]

theorem chatRounds_done_extends (O : Oracles) (fuel : Nat) (h h' : List Msg)
    (c : Option String) (hd : chatRounds O fuel h = .done h' c) :
    ∃ tl, h' = h ++ tl := by
  induction fuel generalizing h with
  | zero => simp [chatRounds] at hd
  | succ n ih =>
    rw [chatRounds] at hd
    cases hm : O.model h with
    | error e => rw [hm] at hd; simp at hd
    | ok r =>
      rw [hm] at hd
      by_cases ht : r.toolCalls.isEmpty
      · simp [ht] at hd
        exact ⟨[], by simp [hd.1]⟩
      · simp [ht] at hd
        cases hr : runToolCalls O r.toolCalls with
        | error e => rw [hr] at hd; simp at hd
        | ok outs =>
          rw [hr] at hd
          obtain ⟨tl, htl⟩ := ih _ hd
          exact ⟨assistantToolMsg r :: outs ++ tl, by simp [htl]⟩

theorem resolveSid_some_self (s : String) : resolveSid (some s) s = s := by
  unfold resolveSid
  exact ite_self s

theorem chatPhase1_of_none (base : String) (vj : Bool) (store : Store)
    (reqSid : Option String) (fresh : String) (inc : List Msg)
    (hs : storeGet store (resolveSid reqSid fresh) = none) :
    chatPhase1 base vj store reqSid fresh inc
      = ⟨storeSet store (resolveSid reqSid fresh) [sysMsg (composePrompt base vj)],
         resolveSid reqSid fresh,
         appendMerge [sysMsg (composePrompt base vj)] inc⟩ := by
  unfold chatPhase1
  simp only [hs]

theorem chatPhase1_of_some (base : String) (vj : Bool) (store : Store)
    (reqSid : Option String) (fresh : String) (inc : List Msg) (h : List Msg)
    (hs : storeGet store (resolveSid reqSid fresh) = some h) :
    chatPhase1 base vj store reqSid fresh inc
      = ⟨store, resolveSid reqSid fresh,
         appendMerge (updateSystemHead h (composePrompt base vj)) inc⟩ := by
  unfold chatPhase1
  simp only [hs]

theorem decodeToolCall_encodeToolCall (tc : ToolCall) :
    decodeToolCall (encodeToolCall tc) = some tc := by
  simp [encodeToolCall, decodeToolCall, getKey]

theorem decodeToolCalls_encode (l : List ToolCall) :
    decodeToolCalls (l.map encodeToolCall) = some l := by
  induction l with
  | nil => rfl
  | cons tc t ih => simp [decodeToolCalls, decodeToolCall_encodeToolCall, ih]

theorem decodeMsg_encodeMsg (m : Msg) :
    decodeMsg (encodeMsg m) = some m := by
  obtain ⟨r, c, tcs, tci⟩ := m
  cases c <;> cases tcs <;> cases tci <;>
    simp [encodeMsg, decodeMsg, getKey, decodeToolCalls_encode]

theorem decodeMsgs_encode (ms : List Msg) :
    decodeMsgs (ms.map encodeMsg) = some ms := by
  induction ms with
  | nil => rfl
  | cons m t ih => simp [decodeMsgs, decodeMsg_encodeMsg, ih]

theorem dupRecent_append_self (h : List Msg) (m : Msg) :
    dupRecent (h ++ [m]) m = true := by
  have hmem : m ∈ lastTwo (h ++ [m]) := by
    unfold lastTwo
    have hle : (h ++ [m]).length - 2 ≤ h.length := by
      simp only [List.length_append, List.length_singleton]
      omega
    rw [List.drop_append_of_le_length hle]
    simp
  unfold dupRecent
  rw [List.any_eq_true]
  exact ⟨m, hmem, by simp⟩

/-! ### Concrete instances used by counterexamples and witnesses -/

/-- Unconfigured credentials (every environment variable unset). -/
def emptyCfg : Config := ⟨"", "", ""⟩

/-- Fully configured credentials. -/
def fullCfg : Config := ⟨"acct", "https://api1.unipile.com:13200", "key"⟩

/-- A world in which the model call and every tool back-end fault. -/
def offlineOracles : Oracles :=
  { model := fun _ => .error "offline",
    cfg := emptyCfg,
    searchHttp := fun _ _ => .error (.exn "offline"),
    resolveHttp := fun _ => .error "offline",
    specHttp := .error "offline" }

/-- The literal model text of the recovery-cascade test sentence. -/
def c1Text : String :=
  "the args are keywords = \"Java Developer\" location = \"Toronto\""

/-- A model that answers the literal test sentence as plain text with no
native tool call. -/
def c1Model : Oracles :=
  { offlineOracles with
    model := fun _ => .ok { content := some c1Text, toolCalls := [] } }

/-- A model that requests the `fetch_unipile_spec` tool on every response. -/
def alwaysToolModel : Oracles :=
  { offlineOracles with
    model := fun _ => .ok
      { content := none, toolCalls := [⟨"call_1", "fetch_unipile_spec", "\x7b\x7d"⟩] } }

/-! ### Claims -/

/-- Claim C1, counterexample.  For the literal model text
`the args are keywords = "Java Developer" location = "Toronto"` carried by
a response with no native tool call, the handler streams the text verbatim
as an ordinary assistant reply: the resulting history is exactly
system/user/assistant with no tool-role message and no search invocation,
so no recovery parser yields `{toolName: search, ...}`. -/
theorem c1_counterexample :
    chat c1Model "BASE" true [] none "s1" [userMsg "find me java developers"] 3
      = some ([("s1", [sysMsg "BASE", userMsg "find me java developers", asstMsg c1Text])],
              ["the args are keywords = \"Java Developer\" location ", "= \"Toronto\""])
    ∧ ([sysMsg "BASE", userMsg "find me java developers", asstMsg c1Text]).filter
        (fun m => m.role == "tool") = []
    ∧ String.join ["the args are keywords = \"Java Developer\" location ", "= \"Toronto\""]
        = c1Text :=
  ⟨by decide, by decide, by decide⟩

/-- Claim C1, amended.  The backend has no recovery parser: whenever the
model response carries no native structured tool call, `chat` exits its
loop at once and streams the response text verbatim as an ordinary
assistant reply, appending only a plain assistant message; no tool
invocation is synthesized from the text. -/
theorem c1_no_recovery (O : Oracles) (base : String) (vj : Bool) (store : Store)
    (reqSid : Option String) (fresh : String) (inc : List Msg) (fuel : Nat) (c : String)
    (hm : O.model (chatPhase1 base vj store reqSid fresh inc).hist
            = .ok { content := some c, toolCalls := [] }) :
    chat O base vj store reqSid fresh inc (fuel + 1)
      = some (chatFinish (chatPhase1 base vj store reqSid fresh inc).store1
                (chatPhase1 base vj store reqSid fresh inc).sid
                (chatPhase1 base vj store reqSid fresh inc).hist c,
              chunk50 c.data) := by
  have hstep : chatRounds O (fuel + 1) (chatPhase1 base vj store reqSid fresh inc).hist
      = .done (chatPhase1 base vj store reqSid fresh inc).hist (some c) := by
    rw [chatRounds.eq_def]
    simp [hm]
  unfold chat
  simp only [hstep]
  rfl

/-- Witness for `c1_no_recovery` at the literal test sentence. -/
theorem c1_no_recovery_witness :
    chat c1Model "BASE" true [] none "s1" [userMsg "find me java developers"] 3
      = some (chatFinish
                (chatPhase1 "BASE" true [] none "s1" [userMsg "find me java developers"]).store1
                (chatPhase1 "BASE" true [] none "s1" [userMsg "find me java developers"]).sid
                (chatPhase1 "BASE" true [] none "s1" [userMsg "find me java developers"]).hist
                c1Text,
              chunk50 c1Text.data) :=
  c1_no_recovery c1Model "BASE" true [] none "s1" [userMsg "find me java developers"] 2
    c1Text rfl

/-- Claim C2, counterexample.  For a base template that does not contain
the expected checkpoint and step-4 blocks (edited out of band), composing
with the approval-skipping flag returns the unmodified base template: no
`TemplateMismatchError` exists anywhere in the code (`composePrompt` is a
total function into `String`), the default approval behaviour is silently
left in place. -/
theorem c2_counterexample :
    containsSub checkpointBlock.data "edited template".data = false
    ∧ containsSub step4Block.data "edited template".data = false
    ∧ composePrompt "edited template" false = "edited template" :=
  ⟨by decide, by decide, by decide⟩

/-- Claim C2, amended.  Whenever the expected named blocks are not found
verbatim in the base template, prompt composition silently returns the
base template unchanged (only debug prints are emitted); it raises
nothing. -/
theorem c2_silent_fallback (base : String)
    (h1 : containsSub checkpointBlock.data base.data = false)
    (h2 : containsSub step4Block.data base.data = false) :
    composePrompt base false = base := by
  unfold composePrompt
  simp only [Bool.false_eq_true, if_false]
  rw [pyReplace_eq_self _ _ _ h1, pyReplace_eq_self _ _ _ h1, pyReplace_eq_self _ _ _ h2]

/-- Witness for `c2_silent_fallback` on a concrete edited template. -/
theorem c2_silent_fallback_witness :
    composePrompt "edited template" false = "edited template" :=
  c2_silent_fallback "edited template" (by decide) (by decide)

/-- With the always-tool-requesting model every round re-enters the loop:
after any number of rounds the loop is still running. -/
theorem alwaysTool_rounds_running (n : Nat) :
    ∀ h, chatRounds alwaysToolModel n h = .running := by
  induction n with
  | zero => intro h; rfl
  | succ k ih =>
    intro h
    rw [chatRounds]
    exact ih _

/-- Claim C3, counterexample.  The dispatch loop of `chat` is `while True`
with no iteration cap: against a model that requests a tool call on every
response, the turn never completes for any number of rounds, and in
particular no "tool loop limit" notice is ever surfaced. -/
theorem c3_counterexample :
    ¬ ∃ (n : Nat) (out : Store × List String),
        chat alwaysToolModel "BASE" true [] none "s1" [userMsg "u"] n = some out := by
  rintro ⟨n, out, hout⟩
  unfold chat at hout
  simp only [alwaysTool_rounds_running] at hout
  exact Option.noConfusion hout

/-- Claim C3, amended.  The tool-dispatch loop is unbounded: for every
round budget `n`, a model that always requests a tool call leaves the loop
still running after `n` rounds (the turn never terminates and no
tool-loop-limit notice exists in the code). -/
theorem c3_unbounded_loop (n : Nat) (base : String) (vj : Bool) (store : Store)
    (reqSid : Option String) (fresh : String) (inc : List Msg) :
    chat alwaysToolModel base vj store reqSid fresh inc n = none := by
  unfold chat
  simp only [alwaysTool_rounds_running]

/-- Claim C4.  When the model call faults at any point of the tool loop,
the turn yields exactly one error fragment, the session store is left at
the value phase 1 committed — which is the unchanged pre-turn store
whenever the session already existed — and every persisted history is
still free of dangling assistant messages (assistant messages whose tool
calls lack matching tool results). -/
theorem c4_fault_atomicity (O : Oracles) (base : String) (vj : Bool) (store : Store)
    (reqSid : Option String) (fresh : String) (inc : List Msg) (fuel : Nat) (e : String)
    (hf : chatRounds O fuel (chatPhase1 base vj store reqSid fresh inc).hist = .fault e)
    (hnd : ∀ sid h, storeGet store sid = some h → noDanglingB h = true) :
    chat O base vj store reqSid fresh inc fuel
      = some ((chatPhase1 base vj store reqSid fresh inc).store1, ["Error: " ++ e])
    ∧ (∀ h0, storeGet store (chatPhase1 base vj store reqSid fresh inc).sid = some h0 →
        (chatPhase1 base vj store reqSid fresh inc).store1 = store)
    ∧ (∀ sid h, storeGet (chatPhase1 base vj store reqSid fresh inc).store1 sid = some h →
        noDanglingB h = true) := by
  refine ⟨?_, ?_, ?_⟩
  · unfold chat
    simp only [hf]
  · intro h0 hh0
    cases hs : storeGet store (resolveSid reqSid fresh) with
    | none =>
      simp only [chatPhase1_of_none base vj store reqSid fresh inc hs, hs] at hh0
      exact Option.noConfusion hh0
    | some h =>
      rw [chatPhase1_of_some base vj store reqSid fresh inc h hs]
  · intro sid' h' hh'
    cases hs : storeGet store (resolveSid reqSid fresh) with
    | some h =>
      rw [chatPhase1_of_some base vj store reqSid fresh inc h hs] at hh'
      exact hnd _ _ hh'
    | none =>
      rw [chatPhase1_of_none base vj store reqSid fresh inc hs] at hh'
      by_cases hsid : sid' = resolveSid reqSid fresh
      · have hk : getKey (setKey store (resolveSid reqSid fresh)
            [sysMsg (composePrompt base vj)]) sid' = some h' := hh'
        rw [hsid, getKey_setKey_self] at hk
        have hk' : [sysMsg (composePrompt base vj)] = h' := by
          injection hk
        subst hk'
        simp [noDanglingB, sysMsg]
      · have hk : getKey (setKey store (resolveSid reqSid fresh)
            [sysMsg (composePrompt base vj)]) sid' = some h' := hh'
        rw [getKey_setKey_ne _ _ _ _ hsid] at hk
        exact hnd _ _ hk

/-- Witness for `c4_fault_atomicity`: the model faults on the first call of
a fresh session; the turn answers with the single error fragment and the
store holds only the creation commit. -/
theorem c4_fault_atomicity_witness :
    chat offlineOracles "BASE" true [] none "s1" [userMsg "u"] 1
      = some ((chatPhase1 "BASE" true [] none "s1" [userMsg "u"]).store1,
              ["Error: " ++ "offline"]) :=
  (c4_fault_atomicity offlineOracles "BASE" true [] none "s1" [userMsg "u"] 1 "offline"
    rfl
    (by intro sid h hh; simp [storeGet, getKey] at hh)).1

/-- Claim C5.  The append-merge of `chat` is idempotent against exact
duplicate resubmission: an incoming tail message whose (role, content)
pair already sits among the last up-to-two stored messages is skipped, so
submitting the identical latest user message twice in direct succession
stores exactly one copy. -/
theorem c5_appendMerge_idempotent :
    (∀ (hist inc : List Msg) (m : Msg),
        inc.getLast? = some m → dupRecent hist m = true → appendMerge hist inc = hist)
    ∧ (∀ (hist : List Msg) (m : Msg),
        appendMerge (appendMerge hist [m]) [m] = appendMerge hist [m]) := by
  constructor
  · intro hist inc m hlast hdup
    simp [appendMerge, hlast, hdup]
  · intro hist m
    by_cases hd : dupRecent hist m = true
    · simp [appendMerge, hd]
    · have hd' : dupRecent hist m = false := by simpa using hd
      simp [appendMerge, hd', dupRecent_append_self]

/-- Witness for `c5_appendMerge_idempotent` on a concrete duplicate. -/
theorem c5_appendMerge_idempotent_witness :
    appendMerge [userMsg "hi"] [userMsg "hi"] = [userMsg "hi"] :=
  c5_appendMerge_idempotent.1 [userMsg "hi"] [userMsg "hi"] (userMsg "hi") rfl (by decide)

/-- A model whose first response is a native `search_linkedin` call whose
argument text is not valid JSON. -/
def badArgsModel : Oracles :=
  { offlineOracles with
    model := fun _ => .ok
      { content := some "calling", toolCalls := [⟨"call_1", "search_linkedin", "not json"⟩] } }

/-- Claim C6, counterexample.  An argument-decoding fault is not caught by
the dispatch loop: the `json.loads` failure escapes to the outer handler,
the whole turn aborts with a single turn-level error fragment, and no
`{error: ...}` tool-result payload is produced or persisted — the store
still holds only the creation commit. -/
theorem c6_counterexample :
    jsonParse "not json" = none
    ∧ chat badArgsModel "BASE" true [] none "s1" [userMsg "u"] 3
        = some ([("s1", [sysMsg "BASE"])],
                ["Error: json.loads failed on tool arguments: not json"]) :=
  ⟨by rfl, by decide⟩

/-- Claim C6, amended.  Faults raised inside a tool executor's `try` block
(the HTTP call and response processing of `search_linkedin`) are caught by
the executor and converted into a `{error: <message>}` result value
attached as that tool's result payload, and dispatch succeeds — but
argument-decoding faults are not caught and abort the turn (see the
counterexample). -/
theorem c6_executor_fault_payload (O : Oracles) (i a : String)
    (fs : List (String × JVal)) (f : String)
    (hargs : jsonParse a = some (jobj fs))
    (hlim : getKey fs "limit" = none)
    (hcfg : configOk O.cfg = true)
    (hhttp : ∀ lim body, O.searchHttp lim body = .error (.exn f)) :
    dispatchTool O ⟨i, "search_linkedin", a⟩
      = .ok [toolMsg i (jsonDumps (jobj [("error", jstr ("An error occurred: " ++ f))]))] := by
  have hn1 : (("search_linkedin" : String) == "fetch_unipile_spec") = false := by decide
  unfold dispatchTool
  simp only [hn1, Bool.false_eq_true, if_false, beq_self_eq_true, if_true]
  rw [hargs]
  unfold search_linkedin
  rw [hcfg]
  simp only [Bool.not_true, Bool.false_eq_true, if_false, hlim, Option.getD_none, pyMin50,
    hhttp]

/-- A fully configured world whose search back-end raises a generic
exception on every call. -/
def faultySearchOracles : Oracles :=
  { model := fun _ => .error "unused",
    cfg := fullCfg,
    searchHttp := fun _ _ => .error (.exn "boom"),
    resolveHttp := fun _ => .error "boom",
    specHttp := .error "boom" }

/-- Witness for `c6_executor_fault_payload` on concrete valid arguments. -/
theorem c6_executor_fault_payload_witness :
    dispatchTool faultySearchOracles ⟨"call_1", "search_linkedin", "\x7b\"keywords\": \"java\"\x7d"⟩
      = .ok [toolMsg "call_1"
              (jsonDumps (jobj [("error", jstr ("An error occurred: " ++ "boom"))]))] :=
  c6_executor_fault_payload faultySearchOracles "call_1" "\x7b\"keywords\": \"java\"\x7d"
    [("keywords", jstr "java")] "boom" (by rfl) rfl rfl (fun _ _ => rfl)

/-- Claim C7.  Encoding then decoding any message — or a session's full
ordered message list — reproduces an equal value; since `encodeMsg` emits
the `tool_calls` key exactly when the field is present, a tool-call list
that was never present does not become an empty list after the round
trip, and vice versa. -/
theorem c7_roundtrip :
    (∀ m : Msg, decodeMsg (encodeMsg m) = some m)
    ∧ (∀ ms : List Msg, decodeHistory (encodeHistory ms) = some ms) := by
  constructor
  · exact decodeMsg_encodeMsg
  · intro ms
    simp [encodeHistory, decodeHistory, decodeMsgs_encode]

theorem appendMerge_extends (h inc : List Msg) : ∃ tl, appendMerge h inc = h ++ tl := by
  unfold appendMerge
  cases hl : inc.getLast? with
  | none => exact ⟨[], by simp⟩
  | some m =>
    by_cases hd : dupRecent h m = true
    · exact ⟨[], by simp [hd]⟩
    · have hd' : dupRecent h m = false := by simpa using hd
      exact ⟨[m], by simp [hd']⟩

theorem setKey_setKey {α : Type} (l : List (String × α)) (k : String) (a b : α) :
    setKey (setKey l k a) k b = setKey l k b := by
  induction l with
  | nil => simp [setKey]
  | cons p t ih =>
    obtain ⟨k0, v0⟩ := p
    by_cases h0 : k0 = k
    · subst h0
      simp [setKey]
    · simp [setKey, h0, ih]

theorem StoreInv_storeSet (st : Store) (sid : String) (v : List Msg)
    (hst : StoreInv st) (hv : ∃ m t, v = m :: t ∧ m.role = "system") :
    StoreInv (storeSet st sid v) := by
  intro sid' h' hh'
  by_cases hs : sid' = sid
  · have hk : getKey (setKey st sid v) sid' = some h' := hh'
    rw [hs, getKey_setKey_self] at hk
    have hk' : v = h' := by injection hk
    subst hk'
    exact hv
  · have hk : getKey (setKey st sid v) sid' = some h' := hh'
    rw [getKey_setKey_ne _ _ _ _ hs] at hk
    exact hst _ _ hk

/-- Claim C8.  Any store a chat turn returns — whether the turn succeeded
or aborted on a fault — still satisfies the invariant that every persisted
session history starts with a system-role message: `chat` replaces the
head's content wholesale but only ever appends after it. -/
theorem c8_system_head_invariant (O : Oracles) (base : String) (vj : Bool) (store : Store)
    (reqSid : Option String) (fresh : String) (inc : List Msg) (fuel : Nat)
    (st' : Store) (frags : List String)
    (hinv : StoreInv store)
    (hrun : chat O base vj store reqSid fresh inc fuel = some (st', frags)) :
    StoreInv st' := by
  have hstore1 : StoreInv (chatPhase1 base vj store reqSid fresh inc).store1 := by
    cases hs : storeGet store (resolveSid reqSid fresh) with
    | none =>
      rw [chatPhase1_of_none base vj store reqSid fresh inc hs]
      exact StoreInv_storeSet store _ _ hinv ⟨sysMsg (composePrompt base vj), [], rfl, rfl⟩
    | some h =>
      rw [chatPhase1_of_some base vj store reqSid fresh inc h hs]
      exact hinv
  have hhead : ∃ m t, (chatPhase1 base vj store reqSid fresh inc).hist = m :: t
      ∧ m.role = "system" := by
    cases hs : storeGet store (resolveSid reqSid fresh) with
    | none =>
      rw [chatPhase1_of_none base vj store reqSid fresh inc hs]
      obtain ⟨tl, htl⟩ := appendMerge_extends [sysMsg (composePrompt base vj)] inc
      exact ⟨sysMsg (composePrompt base vj), tl, by simpa using htl, rfl⟩
    | some h =>
      rw [chatPhase1_of_some base vj store reqSid fresh inc h hs]
      obtain ⟨m, t, hmt, hrole⟩ := hinv _ _ hs
      subst hmt
      have hupd : updateSystemHead (m :: t) (composePrompt base vj)
          = { m with content := some (composePrompt base vj) } :: t := by
        simp [updateSystemHead, hrole]
      obtain ⟨tl, htl⟩ :=
        appendMerge_extends ({ m with content := some (composePrompt base vj) } :: t) inc
      refine ⟨{ m with content := some (composePrompt base vj) }, t ++ tl, ?_,
        by simp [hrole]⟩
      rw [hupd, htl]
      simp
  unfold chat at hrun
  cases hcr : chatRounds O fuel (chatPhase1 base vj store reqSid fresh inc).hist with
  | running =>
    simp only [hcr] at hrun
    exact Option.noConfusion hrun
  | fault e =>
    simp only [hcr, Option.some.injEq, Prod.mk.injEq] at hrun
    rw [← hrun.1]
    exact hstore1
  | done h c =>
    simp only [hcr, Option.some.injEq, Prod.mk.injEq] at hrun
    rw [← hrun.1]
    unfold chatFinish
    apply StoreInv_storeSet _ _ _ hstore1
    obtain ⟨tl2, htl2⟩ := chatRounds_done_extends O fuel _ h c hcr
    obtain ⟨m, t, hmt, hrole⟩ := hhead
    refine ⟨m, t ++ tl2 ++ [asstMsg (c.getD "")], ?_, hrole⟩
    rw [htl2, hmt]
    simp

/-- Witness for `c8_system_head_invariant` on a concrete successful turn. -/
theorem c8_system_head_invariant_witness :
    StoreInv [("s1", [sysMsg "BASE", userMsg "find me java developers", asstMsg c1Text])] :=
  c8_system_head_invariant c1Model "BASE" true [] none "s1"
    [userMsg "find me java developers"] 3 _
    ["the args are keywords = \"Java Developer\" location ", "= \"Toronto\""]
    (by intro sid h hh; simp [storeGet, getKey] at hh)
    (by decide)

/-- Claim C9, counterexample.  The handler takes no session-scoped lock;
in the admissible schedule where both turns read the session before either
writes, the second turn's read does not observe the first turn's result
and the final persisted history has lost the first turn's messages
entirely. -/
theorem c9_counterexample :
    interleavedPair "BASE" [("s1", [sysMsg "BASE"])] "s1"
        (userMsg "hire a go developer") (userMsg "hire a java developer")
        "A-reply" "B-reply"
      = ([("s1", [sysMsg "BASE", userMsg "hire a java developer", asstMsg "B-reply"])],
         [sysMsg "BASE", userMsg "hire a go developer"],
         [sysMsg "BASE", userMsg "hire a java developer"])
    ∧ userMsg "hire a go developer" ∉
        [sysMsg "BASE", userMsg "hire a java developer"]
    ∧ userMsg "hire a go developer" ∉
        [sysMsg "BASE", userMsg "hire a java developer", asstMsg "B-reply"] :=
  ⟨by decide, by decide, by decide⟩

/-- Claim C9, amended.  With no mutual exclusion in the code, two turns on
the same session interleaved at the handler's suspension points produce a
lost update: both reads see the pre-turn history, and the final store
holds only the second turn's messages — the first turn's write is
overwritten. -/
theorem c9_lost_update (base : String) (store : Store) (sid : String) (h0 : List Msg)
    (iA iB : Msg) (cA cB : String)
    (hs : storeGet store sid = some h0)
    (hdA : dupRecent (updateSystemHead h0 base) iA = false)
    (hdB : dupRecent (updateSystemHead h0 base) iB = false) :
    interleavedPair base store sid iA iB cA cB
      = (storeSet store sid (updateSystemHead h0 base ++ [iB, asstMsg cB]),
         updateSystemHead h0 base ++ [iA],
         updateSystemHead h0 base ++ [iB]) := by
  have hsg : storeGet store (resolveSid (some sid) sid) = some h0 := by
    rw [resolveSid_some_self]
    exact hs
  have hA := chatPhase1_of_some base true store (some sid) sid [iA] h0 hsg
  have hB := chatPhase1_of_some base true store (some sid) sid [iB] h0 hsg
  have hcomp : composePrompt base true = base := rfl
  rw [hcomp] at hA hB
  have hAm : appendMerge (updateSystemHead h0 base) [iA]
      = updateSystemHead h0 base ++ [iA] := by
    simp [appendMerge, hdA]
  have hBm : appendMerge (updateSystemHead h0 base) [iB]
      = updateSystemHead h0 base ++ [iB] := by
    simp [appendMerge, hdB]
  unfold interleavedPair chatFinish
  simp only [hA, hAm, hB, hBm, storeSet, setKey_setKey, resolveSid_some_self]
  simp

/-- Witness for `c9_lost_update` on a concrete session. -/
theorem c9_lost_update_witness :
    interleavedPair "BASE" [("s1", [sysMsg "BASE"])] "s1"
        (userMsg "hire a go developer") (userMsg "hire a java developer")
        "A-reply" "B-reply"
      = (storeSet [("s1", [sysMsg "BASE"])] "s1"
           (updateSystemHead [sysMsg "BASE"] "BASE"
             ++ [userMsg "hire a java developer", asstMsg "B-reply"]),
         updateSystemHead [sysMsg "BASE"] "BASE" ++ [userMsg "hire a go developer"],
         updateSystemHead [sysMsg "BASE"] "BASE" ++ [userMsg "hire a java developer"]) :=
  c9_lost_update "BASE" [("s1", [sysMsg "BASE"])] "s1" [sysMsg "BASE"]
    (userMsg "hire a go developer") (userMsg "hire a java developer")
    "A-reply" "B-reply" (by decide) (by decide) (by decide)

/-- Claim C10.  For every argument dictionary, the request body built by
`search_linkedin` always carries `api = "recruiter"` and
`category = "people"` regardless of any caller-supplied values, and
whenever the arguments carry no `location` key or a falsy one, the body's
`location` is silently set to the single Toronto, Ontario filter
`[{id: "100025096", priority: "MUST_HAVE"}]`. -/
theorem c10_search_body (fields : List (String × JVal)) :
    getKey (buildSearchBody fields) "api" = some (jstr "recruiter")
    ∧ getKey (buildSearchBody fields) "category" = some (jstr "people")
    ∧ ((getKey fields "location" = none
        ∨ ∃ v, getKey fields "location" = some v ∧ pyFalsy v = true) →
      getKey (buildSearchBody fields) "location" = some torontoDefault) := by
  have hapi : ∀ l : List (String × JVal),
      getKey (setKey (setKey l "api" (jstr "recruiter")) "category" (jstr "people")) "api"
        = some (jstr "recruiter") := by
    intro l
    rw [getKey_setKey_ne _ _ _ _ (by decide : ("api" : String) ≠ "category"),
      getKey_setKey_self]
  have hcat : ∀ l : List (String × JVal),
      getKey (setKey (setKey l "api" (jstr "recruiter")) "category" (jstr "people")) "category"
        = some (jstr "people") := by
    intro l
    rw [getKey_setKey_self]
  have hloc3 : getKey (setKey (setKey (removeKey fields "limit") "api" (jstr "recruiter"))
      "category" (jstr "people")) "location" = getKey fields "location" := by
    rw [getKey_setKey_ne _ _ _ _ (by decide : ("location" : String) ≠ "category"),
      getKey_setKey_ne _ _ _ _ (by decide : ("location" : String) ≠ "api"),
      getKey_removeKey_ne _ _ _ (by decide : ("location" : String) ≠ "limit")]
  simp only [buildSearchBody, hloc3]
  cases hl : getKey fields "location" with
  | none =>
    refine ⟨?_, ?_, fun _ => ?_⟩
    · rw [getKey_setKey_ne _ _ _ _ (by decide : ("api" : String) ≠ "location"), hapi]
    · rw [getKey_setKey_ne _ _ _ _ (by decide : ("category" : String) ≠ "location"), hcat]
    · rw [getKey_setKey_self]
  | some v =>
    by_cases hf : pyFalsy v = true
    · simp only [hf, if_true]
      refine ⟨?_, ?_, fun _ => ?_⟩
      · rw [getKey_setKey_ne _ _ _ _ (by decide : ("api" : String) ≠ "location"), hapi]
      · rw [getKey_setKey_ne _ _ _ _ (by decide : ("category" : String) ≠ "location"), hcat]
      · rw [getKey_setKey_self]
    · have hf' : pyFalsy v = false := by simpa using hf
      simp only [hf', Bool.false_eq_true, if_false]
      refine ⟨hapi _, hcat _, fun hc => ?_⟩
      rcases hc with hnone | ⟨v', hv', hfv'⟩
      · exact Option.noConfusion hnone
      · have hvv : v = v' := by injection hv'
        subst hvv
        exact absurd hfv' (by simp [hf'])

/-- Witness for `c10_search_body` on arguments with no location key. -/
theorem c10_search_body_witness :
    getKey (buildSearchBody [("keywords", jstr "java")]) "location" = some torontoDefault :=
  (c10_search_body [("keywords", jstr "java")]).2.2 (Or.inl rfl)

end UnipileBot

